import Mathlib

/-!
# Verification of the Download Reconciliation Engine (server.py)

Shallow embedding of the reconciliation logic of `src/server.py`:
the `/fetch_info` stream classifier, the audio-presence detector
`ffprobe_has_audio`, the merge/transcode executor
`transcode_to_compatible_mp4`, and the `/download` endpoint's
control flow including workspace lifecycle.

Modelling conventions:
* Python `float` values (bitrates, sizes, durations) are modelled as `ℚ`;
  Python's `round` (banker's rounding to the nearest integer) is `pyRound`.
* Python `None`-able dict fields are `Option` fields; Python truthiness of
  strings/numbers (`None`, `""`, `0` are falsy) is made explicit.
* External collaborators (yt-dlp, ffprobe, ffmpeg) are black boxes: their
  outcomes are inputs of the model (`Except` for calls that can raise),
  and the ffmpeg command *construction* is embedded verbatim.
* Paths inside the per-request workspace are modelled by their basenames;
  the workspace directory contents are a list of (name, size) entries.
-/

/-- Python truthiness of an optional string: `None` and `""` are falsy. -/
def sTruthy : Option String → Bool
  | none => false
  | some s => s ≠ ""

/-- Python truthiness of an optional number: `None`, `0` and `0.0` are falsy. -/
def qTruthy : Option ℚ → Bool
  | none => false
  | some q => q ≠ 0

/-- Python `a or b` for an optional string `a` and a string default `b`. -/
def pyOrStr (a : Option String) (b : String) : String :=
  match a with
  | some s => if s = "" then b else s
  | none => b

/-- Python `a or b` on two optional numbers (`b` is returned, possibly
`None`, whenever `a` is falsy). -/
def pyOrQ (a b : Option ℚ) : Option ℚ :=
  if qTruthy a then a else b

/-- Python `int(x)` for a nonnegative float: truncation toward zero,
i.e. the floor on our (nonnegative) uses. -/
def pyInt (q : ℚ) : ℤ := ⌊q⌋

/-- Python `round(x)`: round half to even (banker's rounding). -/
def pyRound (q : ℚ) : ℤ :=
  if q - ⌊q⌋ < 1/2 then ⌊q⌋
  else if 1/2 < q - ⌊q⌋ then ⌊q⌋ + 1
  else if ⌊q⌋ % 2 = 0 then ⌊q⌋ else ⌊q⌋ + 1

/-- Python `round(x, 2)`: rounding to two decimal places. -/
def pyRound2 (q : ℚ) : ℚ := (pyRound (q * 100) : ℚ) / 100

/-! ## Stream descriptors and the `/fetch_info` classifier -/

/-- One raw stream descriptor as returned by the extraction collaborator
(yt-dlp). Fields are exactly the dict keys `server.py` reads; `none`
models an absent key or Python `None`. -/
structure RawFmt where
  format_id : Option String := none
  ext : Option String := none
  acodec : Option String := none
  vcodec : Option String := none
  abr : Option ℚ := none
  tbr : Option ℚ := none
  filesize : Option ℚ := none
  filesize_approx : Option ℚ := none
  height : Option ℕ := none
  width : Option ℕ := none
  format_note : Option String := none
deriving Repr, DecidableEq

/-- An entry of the `audio_formats` dict built at `server.py:424-436`. -/
structure AudioEntry where
  format_id : Option String
  ext : Option String
  format_note : String
  format_note_clean : String
  filesize : Option ℚ
  filesize_mb : Option ℚ
  filesize_text : String
  vcodec : Option String
  acodec : Option String
  abr : ℤ
  bitrate : ℤ
deriving Repr, DecidableEq

/-- An entry of the `video_formats` list built at `server.py:450-461`. -/
structure VideoEntry where
  format_id : Option String
  ext : Option String
  format_note : String
  filesize : Option ℚ
  filesize_mb : Option ℚ
  filesize_text : String
  width : Option ℕ
  height : Option ℕ
  vcodec : Option String
  acodec : Option String
deriving Repr, DecidableEq

/-- The audio quality tiering of `server.py:407-412`. -/
def tierOf (abr : ℚ) : String :=
  if abr < 90 then "Low" else if abr < 170 then "Medium" else "High"

/-- The audio menu entry constructed at `server.py:414-436`.
CPython float formatting inside `filesize_text` is rendered via
`toString` of the rational (no claim depends on this text). -/
def mkAudioEntry (duration : ℚ) (f : RawFmt) (quality : String) (abr : ℚ) : AudioEntry :=
  let filesize0 := pyOrQ f.filesize f.filesize_approx
  let filesize : Option ℚ :=
    if ¬ qTruthy filesize0 ∧ 0 < duration then
      let estimated_bytes := abr * 1000 / 8 * duration
      if 100 * 1024 < estimated_bytes then some ((pyInt estimated_bytes : ℤ) : ℚ)
      else filesize0
    else filesize0
  let filesize_mb : Option ℚ :=
    if qTruthy filesize then some (pyRound2 (filesize.getD 0 / (1024 * 1024))) else none
  let filesize_str : String :=
    if qTruthy filesize_mb then toString (filesize_mb.getD 0) ++ " MB" else "N/A"
  { format_id := f.format_id
    ext := f.ext
    format_note := quality ++ " (" ++ toString (pyRound abr) ++ " kbps)"
    format_note_clean := quality.toLower
    filesize := filesize
    filesize_mb := filesize_mb
    filesize_text := filesize_str
    vcodec := f.vcodec
    acodec := f.acodec
    abr := pyRound abr
    bitrate := pyRound abr }

/-- The video menu entry constructed at `server.py:440-461`. -/
def mkVideoEntry (duration : ℚ) (f : RawFmt) : VideoEntry :=
  let label : String :=
    match f.height with
    | some h => if h ≠ 0 then toString h ++ "p" else pyOrStr f.format_note "Video"
    | none => pyOrStr f.format_note "Video"
  let filesize0 := pyOrQ f.filesize f.filesize_approx
  let filesize : Option ℚ :=
    if ¬ qTruthy filesize0 ∧ duration ≠ 0 ∧ qTruthy f.tbr then
      some ((pyInt (f.tbr.getD 0 * 1000 / 8 * duration) : ℤ) : ℚ)
    else filesize0
  let filesize_mb : Option ℚ :=
    if qTruthy filesize then some (pyRound2 (filesize.getD 0 / (1024 * 1024))) else none
  let filesize_str : String :=
    if qTruthy filesize_mb then toString (filesize_mb.getD 0) ++ " MB" else "N/A"
  { format_id := f.format_id
    ext := f.ext
    format_note := label
    filesize := filesize
    filesize_mb := filesize_mb
    filesize_text := filesize_str
    width := f.width
    height := f.height
    vcodec := f.vcodec
    acodec := f.acodec }

/-- Lookup in an insertion-ordered association list (our model of the
Python dict `audio_formats`). -/
def lookupA (q : String) : List (String × AudioEntry) → Option AudioEntry
  | [] => none
  | (k, e) :: rest => if k = q then some e else lookupA q rest

/-- Value replacement at an existing key, preserving insertion order
(the semantics of assigning to an existing Python dict key). -/
def updateA (q : String) (e : AudioEntry) (m : List (String × AudioEntry)) :
    List (String × AudioEntry) :=
  m.map (fun p => if p.1 = q then (q, e) else p)

/-- One iteration of the `for f in info.get("formats", [])` loop of
`fetch_info` (`server.py:397-461`), threading the `audio_formats` dict
and the `video_formats` list. -/
def classifyStep (duration : ℚ) (acc : List (String × AudioEntry) × List VideoEntry)
    (f : RawFmt) : List (String × AudioEntry) × List VideoEntry :=
  if ¬ sTruthy f.acodec ∧ ¬ sTruthy f.vcodec then acc
  else if f.vcodec = some "none" ∧ f.acodec ≠ some "none" then
    let abr := f.abr.getD 0
    if abr ≤ 0 then acc
    else
      let quality := tierOf abr
      match lookupA quality acc.1 with
      | none => (acc.1 ++ [(quality, mkAudioEntry duration f quality abr)], acc.2)
      | some old =>
          if (old.abr : ℚ) < abr then
            (updateA quality (mkAudioEntry duration f quality abr) acc.1, acc.2)
          else acc
  else if f.vcodec ≠ some "none" then (acc.1, acc.2 ++ [mkVideoEntry duration f])
  else acc

/-- An entry of the published `formats` list (audio dict values are
followed by video entries). -/
inductive FmtEntry where
  | audio (a : AudioEntry)
  | video (v : VideoEntry)
deriving Repr, DecidableEq

/-- The `audio_formats` dict after the classification loop of `fetch_info`. -/
def audio_formats_map (duration : ℚ) (fmts : List RawFmt) : List (String × AudioEntry) :=
  (fmts.foldl (classifyStep duration) ([], [])).1

/-- The `video_formats` list after the classification loop of `fetch_info`. -/
def video_formats_list (duration : ℚ) (fmts : List RawFmt) : List VideoEntry :=
  (fmts.foldl (classifyStep duration) ([], [])).2

/-- `formats_out = list(audio_formats.values()) + video_formats`
(`server.py:463`). -/
def fetch_info_formats (duration : ℚ) (fmts : List RawFmt) : List FmtEntry :=
  (audio_formats_map duration fmts).map (fun p => FmtEntry.audio p.2)
    ++ (video_formats_list duration fmts).map FmtEntry.video

/-! ## Audio Presence Detector and Merge/Transcode Executor -/

/-- Char-level splitting on a separator (kernel-computable replacement
for `String.splitOn` on a one-character separator). -/
def splitCharsAux (sep : Char) : List Char → List Char → List (List Char)
  | [], acc => [acc.reverse]
  | c :: rest, acc =>
    if c = sep then acc.reverse :: splitCharsAux sep rest []
    else splitCharsAux sep rest (c :: acc)

/-- Split a string on a one-character separator. -/
def splitOnChar (sep : Char) (s : String) : List String :=
  (splitCharsAux sep s.toList []).map (fun cs => String.mk cs)

/-- Python `str.splitlines` restricted to newline separators (sufficient
for the line-membership test the detector performs). -/
def splitlines (s : String) : List String := splitOnChar (Char.ofNat 10) s

/-- `ffprobe_has_audio` (`server.py:171-190`). The probe invocation is a
black box whose outcome is the argument: `.ok out` is the captured stdout,
`.error` is any exception escaping `run_subprocess`; the `except` branch
returns `True`. -/
def ffprobe_has_audio (probe : Except String String) : Bool :=
  match probe with
  | .ok out => (splitlines out).contains "audio"
  | .error _ => true

/-- The lavfi silent-source specifier used at `server.py:250`. -/
def anullsrcSpec : String := "anullsrc=channel_layout=stereo:sample_rate=44100"

/-- The ffmpeg argument list built by `transcode_to_compatible_mp4`
(`server.py:234-256`); `audio_path_exists` models
`os.path.exists(audio_path)`. -/
def transcode_cmd (video_path : String) (audio_path : Option String)
    (audio_path_exists : Bool) (output_path : String) : List String :=
  let cmd := ["ffmpeg", "-y"]
  if sTruthy audio_path ∧ audio_path_exists then
    cmd ++ ["-i", video_path, "-i", audio_path.getD "",
      "-c:v", "libx264", "-preset", "veryfast", "-crf", "23",
      "-c:a", "aac", "-b:a", "128k",
      "-map", "0:v:0", "-map", "1:a:0",
      "-shortest", "-movflags", "+faststart", output_path]
  else
    cmd ++ ["-i", video_path,
      "-f", "lavfi", "-i", anullsrcSpec,
      "-shortest",
      "-c:v", "libx264", "-preset", "veryfast", "-crf", "23",
      "-c:a", "aac", "-b:a", "128k",
      "-map", "0:v:0", "-map", "1:a:0",
      "-movflags", "+faststart", output_path]

/-- The return value of `transcode_to_compatible_mp4` (`server.py:258-263`):
`subprocess.run(..., check=True)` either returns (`.ok`) or raises
`CalledProcessError` (`.error stderr`); the `except` branch returns
`False`, so the function's result is a total `Bool` — it never raises a
collaborator failure past its boundary. -/
def transcode_to_compatible_mp4_result (run : Except String Unit) : Bool :=
  match run with
  | .ok _ => true
  | .error _ => false

/-- Arguments following `"-i"` flags, in order. -/
def cmdInputs : List String → List String
  | [] => []
  | a :: rest =>
    if a = "-i" then
      match rest with
      | [] => []
      | b :: rest' => b :: cmdInputs rest'
    else cmdInputs rest

/-- Arguments following `"-map"` flags, in order. -/
def cmdMaps : List String → List String
  | [] => []
  | a :: rest =>
    if a = "-map" then
      match rest with
      | [] => []
      | b :: rest' => b :: cmdMaps rest'
    else cmdMaps rest

/-- Description of one ffmpeg input: stream kinds and duration
(`none` = unbounded, as for the lavfi `anullsrc` generator). -/
structure InDesc where
  hasAudio : Bool
  hasVideo : Bool
  duration : Option ℚ
deriving Repr, DecidableEq

/-- Modelled from the spec: the transcoding collaborator (spec §6, §4.4)
treats the `anullsrc` lavfi specifier as an unbounded synthetic silent
stereo 44.1 kHz audio source; any other input is described by the
file-description oracle `fileDesc`. -/
def describeInput (fileDesc : String → InDesc) (s : String) : InDesc :=
  if s = anullsrcSpec then ⟨true, false, none⟩ else fileDesc s

/-- The colon-separated fields of a `-map` specifier. -/
def mapFields (m : String) : List String := splitOnChar ':' m

/-- Does a `-map` specifier such as `"1:a:0"` select an audio stream? -/
def mapIsAudio (m : String) : Bool := (mapFields m).get? 1 == some "a"

/-- Does a `-map` specifier such as `"0:v:0"` select a video stream? -/
def mapIsVideo (m : String) : Bool := (mapFields m).get? 1 == some "v"

/-- Decimal digits to a natural number (kernel-computable stand-in for
`String.toNat?`). -/
def digitsToNat : List Char → Option ℕ
  | [] => none
  | cs =>
    if cs.all (fun c => c.isDigit) then
      some (cs.foldl (fun n c => 10 * n + (c.toNat - 48)) 0)
    else none

/-- The input index of a `-map` specifier. -/
def mapIndex (m : String) : Option ℕ :=
  ((mapFields m).get? 0).bind (fun s => digitsToNat s.toList)

/-- Minimum of two durations, `none` being unbounded. -/
def minDur : Option ℚ → Option ℚ → Option ℚ
  | none, b => b
  | some x, none => some x
  | some x, some y => some (min x y)

/-- Maximum of two durations, `none` being unbounded. -/
def maxDur : Option ℚ → Option ℚ → Option ℚ
  | none, _ => none
  | some _, none => none
  | some x, some y => some (max x y)

/-- Streams and duration of the file the transcoding collaborator writes. -/
structure OutDesc where
  hasAudio : Bool
  hasVideo : Bool
  duration : Option ℚ
deriving Repr, DecidableEq

/-- Modelled from the spec: the transcoding collaborator (spec §6)
produces an output holding exactly the streams selected by the `-map`
directives; with `-shortest` the output is truncated to the shortest
mapped input (spec §4.4), otherwise it lasts as long as the longest. -/
def ffmpegOutput (fileDesc : String → InDesc) (cmd : List String) : OutDesc :=
  let ins := (cmdInputs cmd).map (describeInput fileDesc)
  let sel := fun m => (mapIndex m).bind (fun i => ins.get? i)
  let mappedIns := (cmdMaps cmd).filterMap sel
  let hasA := (cmdMaps cmd).any (fun m =>
    mapIsAudio m && ((sel m).map InDesc.hasAudio).getD false)
  let hasV := (cmdMaps cmd).any (fun m =>
    mapIsVideo m && ((sel m).map InDesc.hasVideo).getD false)
  let dur :=
    if cmd.contains "-shortest" then (mappedIns.map InDesc.duration).foldl minDur none
    else (mappedIns.map InDesc.duration).foldl maxDur (some 0)
  ⟨hasA, hasV, dur⟩

/-! ## The `/download` endpoint -/

/-- One file in the per-request workspace directory (basename and byte size). -/
structure FileEntry where
  name : String
  size : ℕ
deriving Repr, DecidableEq

/-- Outcomes of the black-box collaborator calls one `/download` request
makes, fixed up front; the model threads them through the handler's
control flow. -/
structure DlEnv where
  /-- the `format_id` query parameter. -/
  formatId : Option String
  /-- `extract_info` at `server.py:513-514` (outside the `try` block):
  the probed format list, or the exception it raises. -/
  probe : Except String (List RawFmt)
  /-- the primary `ydl.download` at `server.py:532-533`: the files present
  in the workspace afterwards, or the exception it raises. -/
  fetchFiles : Except String (List FileEntry)
  /-- ffprobe on the primary file (consumed by `ffprobe_has_audio`). -/
  probeAudio : Except String String
  /-- does the `bestaudio` `ydl.download` at `server.py:551-552` raise? -/
  audioRaises : Bool
  /-- does `audio.m4a` exist after the `bestaudio` attempt? -/
  audioFileProduced : Bool
  audioFileSize : ℕ
  /-- the ffmpeg run inside `transcode_to_compatible_mp4`. -/
  transcodeRun : Except String Unit
  /-- does `final.mp4` exist after the ffmpeg run? -/
  transcodeOutProduced : Bool
  finalFileSize : ℕ
  /-- was a `BackgroundTasks` object injected (`server.py:564`)? -/
  hasBackgroundTasks : Bool

/-- How one `/download` request terminates. -/
inductive Outcome where
  /-- `FileResponse(final_path, filename=..., media_type=...)`. -/
  | served (path : String) (filename : String) (mediaType : String)
  /-- an `HTTPException` raised from the handler's `except` branch. -/
  | httpError (status : ℕ) (detail : String)
  /-- an exception raised before the `try` block, propagating uncaught. -/
  | uncaught (msg : String)
deriving Repr, DecidableEq

/-- Observable result of one `/download` request after any scheduled
background cleanup has run: the response, the yt-dlp format string used
for the primary fetch, whether a companion-audio fetch was attempted, the
`audio_path` handed to the executor, the selected `video_path`, and the
final state of the workspace directory. -/
structure DlResult where
  outcome : Outcome
  usedVideoFmt : Option String
  audioFetchAttempted : Bool
  audioPathUsed : Option String
  videoPathUsed : Option String
  dirExists : Bool
  dirFiles : List FileEntry
deriving Repr, DecidableEq

/-- `files.sort(key=os.path.getsize, reverse=True); files[0]`
(`server.py:538-539`): the stable descending sort puts first the earliest
file of maximal size. -/
def selectLargest (x : FileEntry) (xs : List FileEntry) : FileEntry :=
  xs.foldl (fun best g => if best.size < g.size then g else best) x

/-- `remove_file_later` (`server.py:145-155`) applied to a workspace:
removes the named file, then removes the directory only if it is then
empty. Returns `(dirStillExists, remainingFiles)`. -/
def remove_file_later (path : String) (files : List FileEntry) : Bool × List FileEntry :=
  let remaining := files.filter (fun g => g.name != path)
  (!remaining.isEmpty, remaining)

/-- The `/download` handler (`server.py:479-579`). The request-scoped
workspace `tmpdir` is abstracted to its contents; paths inside it are
basenames. Unmodelled: exceptions other than the collaborator outcomes
listed in `DlEnv` (e.g. the transcoding binary missing from PATH). -/
def download (env : DlEnv) : DlResult :=
  -- tempfile.mkdtemp: the workspace now exists and is empty
  match env.probe with
  | .error e =>
      -- extract_info raises outside the try block: nothing deletes tmpdir
      { outcome := .uncaught e, usedVideoFmt := none, audioFetchAttempted := false,
        audioPathUsed := none, videoPathUsed := none,
        dirExists := true, dirFiles := [] }
  | .ok fmts =>
      let chosen := fmts.find? (fun f => f.format_id == env.formatId)
      let has_audio : Bool :=
        match chosen with
        | none => false                      -- Python: `None and ...` is falsy
        | some c => c.acodec != some "none"
      let video_fmt := pyOrStr env.formatId "bestvideo+bestaudio/best"
      match env.fetchFiles with
      | .error e =>
          -- caught by the except branch: shutil.rmtree, HTTPException(500)
          { outcome := .httpError 500 e, usedVideoFmt := some video_fmt,
            audioFetchAttempted := false, audioPathUsed := none, videoPathUsed := none,
            dirExists := false, dirFiles := [] }
      | .ok files =>
          match files with
          | [] =>
              -- HTTPException("No file downloaded."), caught: rmtree, 500
              { outcome := .httpError 500 "No file downloaded.",
                usedVideoFmt := some video_fmt, audioFetchAttempted := false,
                audioPathUsed := none, videoPathUsed := none,
                dirExists := false, dirFiles := [] }
          | f :: fs =>
              let video_path := selectLargest f fs
              let attempt : Bool := !has_audio || !ffprobe_has_audio env.probeAudio
              let audioWritten := attempt && env.audioFileProduced
              let audio_path : Option String :=
                if attempt && !env.audioRaises && env.audioFileProduced
                then some "audio.m4a" else none
              let ok := transcode_to_compatible_mp4_result env.transcodeRun
              let wsFiles := files
                ++ (if audioWritten then [⟨"audio.m4a", env.audioFileSize⟩] else [])
                ++ (if env.transcodeOutProduced then [⟨"final.mp4", env.finalFileSize⟩] else [])
              let final_path :=
                if ok && env.transcodeOutProduced then "final.mp4" else video_path.name
              if env.hasBackgroundTasks then
                let cleaned := remove_file_later final_path wsFiles
                { outcome := .served final_path final_path "video/mp4",
                  usedVideoFmt := some video_fmt,
                  audioFetchAttempted := attempt, audioPathUsed := audio_path,
                  videoPathUsed := some video_path.name,
                  dirExists := cleaned.1, dirFiles := cleaned.2 }
              else
                { outcome := .served final_path final_path "video/mp4",
                  usedVideoFmt := some video_fmt,
                  audioFetchAttempted := attempt, audioPathUsed := audio_path,
                  videoPathUsed := some video_path.name,
                  dirExists := true, dirFiles := wsFiles }

/-! ## Derived definitions used by the verification -/

/-- Does the classification loop accept `f` as a publishable audio-only
descriptor (audio branch taken and `abr > 0`)? -/
def isAudioCand (f : RawFmt) : Bool :=
  f.vcodec == some "none" && f.acodec != some "none" && !decide (f.abr.getD 0 ≤ 0)

/-- Action of one classification-loop iteration on the `audio_formats`
dict alone (the first component of `classifyStep`). -/
def audioStep (duration : ℚ) (m : List (String × AudioEntry)) (f : RawFmt) :
    List (String × AudioEntry) :=
  if isAudioCand f then
    let abr := f.abr.getD 0
    let quality := tierOf abr
    match lookupA quality m with
    | none => m ++ [(quality, mkAudioEntry duration f quality abr)]
    | some old =>
        if (old.abr : ℚ) < abr then updateA quality (mkAudioEntry duration f quality abr) m
        else m
  else m

/-- The `audio_formats` dict recomputed via `audioStep`. -/
def audioFold (duration : ℚ) (fmts : List RawFmt) : List (String × AudioEntry) :=
  fmts.foldl (audioStep duration) []

/-- Bitrates of the publishable audio-only descriptors of tier `q`. -/
def tierAbrs (fmts : List RawFmt) (q : String) : List ℚ :=
  (fmts.filter (fun f => isAudioCand f && (tierOf (f.abr.getD 0) == q))).map
    (fun f => f.abr.getD 0)

/-- The highest bitrate among tier-`q` audio-only descriptors (0 if none;
all publishable bitrates are positive). -/
def tierMax (fmts : List RawFmt) (q : String) : ℚ := (tierAbrs fmts q).foldl max 0

/-- Invariant of the `audio_formats` dict at key `q`: an absent key means
no publishable tier-`q` descriptor was seen; a present entry was built
from some tier-`q` input descriptor whose bitrate is within rounding
distance of the tier maximum, and its stored rounded bitrate equals the
rounded tier maximum. -/
def AudioKeyInv (duration : ℚ) (fmts : List RawFmt) (q : String) :
    Option AudioEntry → Prop
  | none => tierAbrs fmts q = []
  | some e => ∃ f, f ∈ fmts ∧ isAudioCand f = true ∧ tierOf (f.abr.getD 0) = q ∧
      e = mkAudioEntry duration f q (f.abr.getD 0) ∧
      f.abr.getD 0 ≤ tierMax fmts q ∧
      tierMax fmts q ≤ (pyRound (f.abr.getD 0) : ℚ) + 1/2 ∧
      pyRound (tierMax fmts q) = pyRound (f.abr.getD 0)

/-- The container extension a menu entry advertises. -/
def entryExt : FmtEntry → Option String
  | .audio a => a.ext
  | .video v => v.ext

/-! ## Concrete fixtures for counterexamples and witnesses -/

/-- An audio-only descriptor with the given identifier, container
extension and bitrate. -/
def mkAud (id e : String) (br : ℚ) : RawFmt :=
  { format_id := some id, ext := some e, acodec := some "opus",
    vcodec := some "none", abr := some br }

/-- Two Low-tier audio descriptors: 89.75 kbps then 89.875 kbps. The
first is kept (89.875 is not greater than the stored rounded 90), so the
published entry does not come from the maximal-bitrate descriptor. -/
def fmtsC7 : List RawFmt := [mkAud "a1" "webm" (359/4), mkAud "a2" "webm" (719/8)]

/-- A single audio-only descriptor offered as webm/opus. -/
def fmtsC3 : List RawFmt := [mkAud "a1" "webm" 128]

/-- A `/download` request in which every collaborator call succeeds: the
chosen format reports audio, the fetched file probes as having audio, and
the transcode writes `final.mp4`. -/
def envOk : DlEnv :=
  { formatId := some "22",
    probe := .ok [{ format_id := some "22", acodec := some "mp4a.40.2" }],
    fetchFiles := .ok [⟨"My Video.mp4", 5000⟩],
    probeAudio := .ok "video\naudio",
    audioRaises := false, audioFileProduced := false, audioFileSize := 0,
    transcodeRun := .ok (), transcodeOutProduced := true, finalFileSize := 4000,
    hasBackgroundTasks := true }

/-- `envOk` with a supplied identifier matching no probed descriptor. -/
def envStale : DlEnv := { envOk with formatId := some "stale" }

/-- `envOk` with a probe (`extract_info`) failure. -/
def envProbeFail : DlEnv := { envOk with probe := .error "extract failed" }

/-- `envOk` with a failing primary fetch. -/
def envFetchFail : DlEnv := { envOk with fetchFiles := .error "fetch failed" }

/-- `envOk` with a failing transcode (and no `final.mp4` written). -/
def envTransFail : DlEnv :=
  { envOk with transcodeRun := .error "ffmpeg exited 1", transcodeOutProduced := false }

/-- `envOk` where the chosen format is audio-less, the companion
`bestaudio` fetch raises, and the transcode (silent injection) succeeds. -/
def envAudioFail : DlEnv :=
  { envOk with
    probe := .ok [{ format_id := some "22", acodec := some "none" }],
    probeAudio := .ok "video",
    audioRaises := true, audioFileProduced := false }

/-! ## Arithmetic lemmas about Python rounding -/

theorem pyRound_le (q : ℚ) : (pyRound q : ℚ) ≤ q + 1/2 := by
  have h0 : (⌊q⌋ : ℚ) ≤ q := Int.floor_le q
  unfold pyRound
  split
  · linarith
  · split
    · push_cast; linarith
    · split <;> push_cast <;> linarith

theorem le_pyRound (q : ℚ) : q - 1/2 ≤ (pyRound q : ℚ) := by
  have h1 : q < (⌊q⌋ : ℚ) + 1 := Int.lt_floor_add_one q
  unfold pyRound
  split
  · next h => linarith
  · split
    · push_cast; linarith
    · next h h' =>
      have : q - ⌊q⌋ = 1/2 := le_antisymm (not_lt.mp h') (not_lt.mp h)
      split <;> push_cast <;> linarith

/-- A rational strictly within half a unit of the integer `n` rounds to `n`. -/
theorem pyRound_eq_of_bounds (n : ℤ) (q : ℚ)
    (h1 : (n : ℚ) - 1/2 < q) (h2 : q < (n : ℚ) + 1/2) : pyRound q = n := by
  have hfle : ⌊q⌋ ≤ n := by
    have hq : q < ((n + 1 : ℤ) : ℚ) := by push_cast; linarith
    have := Int.floor_lt.mpr hq
    omega
  have hfge : n - 1 ≤ ⌊q⌋ := by
    have hq : ((n - 1 : ℤ) : ℚ) ≤ q := by push_cast; linarith
    exact Int.le_floor.mpr hq
  rcases (by omega : ⌊q⌋ = n ∨ ⌊q⌋ = n - 1) with hf | hf
  · have hc : q - (⌊q⌋ : ℚ) < 1/2 := by rw [hf]; linarith
    unfold pyRound
    rw [if_pos hc, hf]
  · have hc : ¬ (q - (⌊q⌋ : ℚ) < 1/2) := by
      rw [hf]; push_cast; intro h; linarith
    have hc2 : 1/2 < q - (⌊q⌋ : ℚ) := by rw [hf]; push_cast; linarith
    unfold pyRound
    rw [if_neg hc, if_pos hc2, hf]
    omega

/-- An integer strictly below `q` is at most `pyRound q`. -/
theorem le_pyRound_of_lt (n : ℤ) (q : ℚ) (h : (n : ℚ) < q) : n ≤ pyRound q := by
  by_contra hc
  have h2 : pyRound q ≤ n - 1 := by omega
  have h3 : (pyRound q : ℚ) ≤ (n : ℚ) - 1 := by exact_mod_cast h2
  have h4 := le_pyRound q
  linarith

/-! ## Association-list lemmas (`audio_formats` dict model) -/

theorem lookupA_eq_none (q : String) (m : List (String × AudioEntry)) :
    lookupA q m = none ↔ q ∉ m.map Prod.fst := by
  induction m with
  | nil => simp [lookupA]
  | cons p rest ih =>
    obtain ⟨k, e⟩ := p
    by_cases hk : k = q
    · subst hk; simp [lookupA]
    · simp [lookupA, hk, ih, Ne.symm hk]

theorem lookupA_append (q : String) (m m' : List (String × AudioEntry)) :
    lookupA q (m ++ m') =
      match lookupA q m with
      | some e => some e
      | none => lookupA q m' := by
  induction m with
  | nil => simp [lookupA]
  | cons p rest ih =>
    obtain ⟨k, e⟩ := p
    by_cases hk : k = q
    · simp [lookupA, hk]
    · simp [lookupA, hk, ih]

theorem updateA_keys (k : String) (e : AudioEntry) (m : List (String × AudioEntry)) :
    (updateA k e m).map Prod.fst = m.map Prod.fst := by
  induction m with
  | nil => simp [updateA]
  | cons p rest ih =>
    obtain ⟨k', e'⟩ := p
    by_cases hk : k' = k
    · subst hk; simpa [updateA] using ih
    · simpa [updateA, hk] using ih

theorem updateA_cons (k : String) (e : AudioEntry) (k' : String) (e' : AudioEntry)
    (rest : List (String × AudioEntry)) :
    updateA k e ((k', e') :: rest) =
      (if k' = k then (k, e) else (k', e')) :: updateA k e rest := by
  by_cases hk : k' = k <;> simp [updateA, hk]

theorem lookupA_cons (q k : String) (e : AudioEntry) (rest : List (String × AudioEntry)) :
    lookupA q ((k, e) :: rest) = if k = q then some e else lookupA q rest := rfl

theorem lookupA_updateA_self (k : String) (e : AudioEntry)
    (m : List (String × AudioEntry)) (h : (lookupA k m).isSome) :
    lookupA k (updateA k e m) = some e := by
  induction m with
  | nil => simp [lookupA] at h
  | cons p rest ih =>
    obtain ⟨k', e'⟩ := p
    rw [updateA_cons]
    by_cases hk : k' = k
    · subst hk
      rw [if_pos rfl, lookupA_cons, if_pos rfl]
    · rw [lookupA_cons, if_neg hk] at h
      rw [if_neg hk, lookupA_cons, if_neg hk]
      exact ih h

theorem lookupA_updateA_ne (q k : String) (e : AudioEntry)
    (m : List (String × AudioEntry)) (h : q ≠ k) :
    lookupA q (updateA k e m) = lookupA q m := by
  induction m with
  | nil => simp [updateA, lookupA]
  | cons p rest ih =>
    obtain ⟨k', e'⟩ := p
    rw [updateA_cons]
    by_cases hk : k' = k
    · subst hk
      rw [if_pos rfl, lookupA_cons, lookupA_cons, if_neg (Ne.symm h), if_neg fun hq => h hq.symm]
      exact ih
    · rw [if_neg hk, lookupA_cons, lookupA_cons]
      by_cases hq : k' = q
      · rw [if_pos hq, if_pos hq]
      · rw [if_neg hq, if_neg hq]
        exact ih

theorem lookupA_head (k : String) (e : AudioEntry) (m : List (String × AudioEntry)) :
    lookupA k ((k, e) :: m) = some e := by
  simp [lookupA]

/-! ## Largest-file selection lemmas -/

theorem selectLargest_cons (x y : FileEntry) (ys : List FileEntry) :
    selectLargest x (y :: ys) = selectLargest (if x.size < y.size then y else x) ys := rfl

theorem selectLargest_mem (x : FileEntry) (xs : List FileEntry) :
    selectLargest x xs ∈ x :: xs := by
  induction xs generalizing x with
  | nil => simp [selectLargest]
  | cons y ys ih =>
    rw [selectLargest_cons]
    have h := ih (if x.size < y.size then y else x)
    simp only [List.mem_cons] at h ⊢
    by_cases hxy : x.size < y.size <;> simp [hxy] at h ⊢ <;> tauto

theorem selectLargest_size (x : FileEntry) (xs : List FileEntry) :
    ∀ g ∈ x :: xs, g.size ≤ (selectLargest x xs).size := by
  induction xs generalizing x with
  | nil =>
    intro g hg
    simp only [List.mem_cons, List.not_mem_nil, or_false] at hg
    subst hg; simp [selectLargest]
  | cons y ys ih =>
    intro g hg
    rw [selectLargest_cons]
    have hc := ih (if x.size < y.size then y else x)
    have hhead : (if x.size < y.size then y else x).size ≤
        (selectLargest (if x.size < y.size then y else x) ys).size :=
      hc _ (List.mem_cons_self _ _)
    simp only [List.mem_cons] at hg
    rcases hg with rfl | rfl | hg
    · by_cases hxy : g.size < y.size <;> simp [hxy] at hhead ⊢ <;> omega
    · by_cases hxy : x.size < g.size <;> simp [hxy] at hhead ⊢ <;> omega
    · exact hc g (List.mem_cons_of_mem _ hg)

/-! ## Classification-loop decomposition -/

theorem mkAudioEntry_abr (d : ℚ) (f : RawFmt) (q : String) (a : ℚ) :
    (mkAudioEntry d f q a).abr = pyRound a := rfl

theorem mkAudioEntry_bitrate (d : ℚ) (f : RawFmt) (q : String) (a : ℚ) :
    (mkAudioEntry d f q a).bitrate = pyRound a := rfl

theorem classifyStep_fst (d : ℚ) (acc : List (String × AudioEntry) × List VideoEntry)
    (f : RawFmt) : (classifyStep d acc f).1 = audioStep d acc.1 f := by
  by_cases hskip : ¬ sTruthy f.acodec ∧ ¬ sTruthy f.vcodec
  · have hv : f.vcodec ≠ some "none" := by
      intro hc
      rw [hc] at hskip
      simp [sTruthy] at hskip
    have hcand : isAudioCand f = false := by simp [isAudioCand, hv]
    simp only [classifyStep, audioStep, if_pos hskip, hcand, Bool.false_eq_true, if_false]
  · by_cases haud : f.vcodec = some "none" ∧ f.acodec ≠ some "none"
    · by_cases habr : f.abr.getD 0 ≤ 0
      · have hcand : isAudioCand f = false := by simp [isAudioCand, habr]
        simp only [classifyStep, audioStep, if_neg hskip, if_pos haud, if_pos habr,
          hcand, Bool.false_eq_true, if_false]
      · have hcand : isAudioCand f = true := by
          simp [isAudioCand, haud.1, haud.2, habr]
        simp only [classifyStep, audioStep, if_neg hskip, if_pos haud, if_neg habr, hcand]
        simp only [if_true]
        cases hlk : lookupA (tierOf (f.abr.getD 0)) acc.1 with
        | none => simp only [hlk]
        | some old =>
          simp only [hlk]
          by_cases hlt : (old.abr : ℚ) < f.abr.getD 0 <;> simp [hlt]
    · by_cases hv : f.vcodec = some "none"
      · have hcand : isAudioCand f = false := by
          have hac : f.acodec = some "none" := by
            by_contra hac
            exact haud ⟨hv, hac⟩
          simp [isAudioCand, hac]
        have hvne : ¬ (f.vcodec ≠ some "none") := fun hne => hne hv
        simp only [classifyStep, audioStep, if_neg hskip, if_neg haud, if_neg hvne,
          hcand, Bool.false_eq_true, if_false]
      · have hcand : isAudioCand f = false := by simp [isAudioCand, hv]
        have hvne : f.vcodec ≠ some "none" := hv
        simp only [classifyStep, audioStep, if_neg hskip, if_neg haud, if_pos hvne,
          hcand, Bool.false_eq_true, if_false]

theorem audio_formats_map_eq (d : ℚ) (fmts : List RawFmt) :
    audio_formats_map d fmts = audioFold d fmts := by
  unfold audio_formats_map audioFold
  suffices h : ∀ acc : List (String × AudioEntry) × List VideoEntry,
      (fmts.foldl (classifyStep d) acc).1 = fmts.foldl (audioStep d) acc.1 by
    exact h ([], [])
  induction fmts with
  | nil => intro acc; rfl
  | cons g gs ih =>
    intro acc
    simp only [List.foldl_cons]
    rw [ih (classifyStep d acc g), classifyStep_fst]

theorem audioFold_append (d : ℚ) (fmts : List RawFmt) (g : RawFmt) :
    audioFold d (fmts ++ [g]) = audioStep d (audioFold d fmts) g := by
  unfold audioFold
  rw [List.foldl_append]
  rfl

theorem tierAbrs_append (fmts : List RawFmt) (g : RawFmt) (q : String) :
    tierAbrs (fmts ++ [g]) q =
      tierAbrs fmts q ++
        (if (isAudioCand g && (tierOf (g.abr.getD 0) == q)) then [g.abr.getD 0] else []) := by
  unfold tierAbrs
  rw [List.filter_append, List.map_append]
  congr 1
  cases h : (isAudioCand g && (tierOf (g.abr.getD 0) == q)) <;>
    simp [List.filter_cons, h]

theorem tierMax_append (fmts : List RawFmt) (g : RawFmt) (q : String) :
    tierMax (fmts ++ [g]) q =
      if (isAudioCand g && (tierOf (g.abr.getD 0) == q)) then
        max (tierMax fmts q) (g.abr.getD 0)
      else tierMax fmts q := by
  unfold tierMax
  rw [tierAbrs_append]
  cases h : (isAudioCand g && (tierOf (g.abr.getD 0) == q)) <;>
    simp [h, List.foldl_append]

theorem tierMax_of_empty (fmts : List RawFmt) (q : String)
    (h : tierAbrs fmts q = []) : tierMax fmts q = 0 := by
  unfold tierMax
  rw [h]
  rfl

theorem AudioKeyInv_extend (d : ℚ) (l : List RawFmt) (g : RawFmt) (q : String)
    (o : Option AudioEntry)
    (hcond : (isAudioCand g && (tierOf (g.abr.getD 0) == q)) = false)
    (h : AudioKeyInv d l q o) : AudioKeyInv d (l ++ [g]) q o := by
  have habrs : tierAbrs (l ++ [g]) q = tierAbrs l q := by
    rw [tierAbrs_append, hcond]
    simp
  have hmax : tierMax (l ++ [g]) q = tierMax l q := by
    unfold tierMax
    rw [habrs]
  cases o with
  | none =>
    simp only [AudioKeyInv] at h ⊢
    rw [habrs]
    exact h
  | some e =>
    obtain ⟨f, hf, h1, h2, h3, h4, h5, h6⟩ := h
    exact ⟨f, List.mem_append_left _ hf, h1, h2, h3,
      by rw [hmax]; exact h4, by rw [hmax]; exact h5, by rw [hmax]; exact h6⟩

theorem audioStep_skip (d : ℚ) (m : List (String × AudioEntry)) (g : RawFmt)
    (hcand : isAudioCand g = false) : audioStep d m g = m := by
  simp [audioStep, hcand]

theorem audioStep_insert (d : ℚ) (m : List (String × AudioEntry)) (g : RawFmt)
    (hcand : isAudioCand g = true)
    (hlk : lookupA (tierOf (g.abr.getD 0)) m = none) :
    audioStep d m g =
      m ++ [(tierOf (g.abr.getD 0),
             mkAudioEntry d g (tierOf (g.abr.getD 0)) (g.abr.getD 0))] := by
  simp [audioStep, hcand, hlk]

theorem audioStep_replace (d : ℚ) (m : List (String × AudioEntry)) (g : RawFmt)
    (old : AudioEntry) (hcand : isAudioCand g = true)
    (hlk : lookupA (tierOf (g.abr.getD 0)) m = some old)
    (hlt : (old.abr : ℚ) < g.abr.getD 0) :
    audioStep d m g =
      updateA (tierOf (g.abr.getD 0))
        (mkAudioEntry d g (tierOf (g.abr.getD 0)) (g.abr.getD 0)) m := by
  simp [audioStep, hcand, hlk, hlt]

theorem audioStep_keep (d : ℚ) (m : List (String × AudioEntry)) (g : RawFmt)
    (old : AudioEntry) (hcand : isAudioCand g = true)
    (hlk : lookupA (tierOf (g.abr.getD 0)) m = some old)
    (hlt : ¬ (old.abr : ℚ) < g.abr.getD 0) :
    audioStep d m g = m := by
  simp [audioStep, hcand, hlk, hlt]

theorem tier_cond_true (g : RawFmt) (hcand : isAudioCand g = true) :
    (isAudioCand g && (tierOf (g.abr.getD 0) == tierOf (g.abr.getD 0))) = true := by
  simp [hcand]

theorem tier_cond_false (g : RawFmt) (q : String) (hq : q ≠ tierOf (g.abr.getD 0)) :
    (isAudioCand g && (tierOf (g.abr.getD 0) == q)) = false := by
  have : (tierOf (g.abr.getD 0) == q) = false := by
    simp [Ne.symm hq]
  simp [this]

/-- Invariant of the `audio_formats` dict over the whole classification
loop: keys (audio tiers) are distinct, and each key satisfies
`AudioKeyInv`. -/
theorem audioFold_inv (d : ℚ) (fmts : List RawFmt) :
    ((audioFold d fmts).map Prod.fst).Nodup ∧
    ∀ q, AudioKeyInv d fmts q (lookupA q (audioFold d fmts)) := by
  induction fmts using List.reverseRecOn with
  | nil =>
    refine ⟨by simp [audioFold], fun q => ?_⟩
    show tierAbrs [] q = []
    simp [tierAbrs]
  | append_singleton l g ih =>
    obtain ⟨ihn, ihq⟩ := ih
    rw [audioFold_append]
    by_cases hcand : isAudioCand g = true
    case neg =>
      have hcand' : isAudioCand g = false := by
        cases h : isAudioCand g
        · rfl
        · exact absurd h hcand
      rw [audioStep_skip d _ g hcand']
      refine ⟨ihn, fun q => ?_⟩
      exact AudioKeyInv_extend d l g q _ (by simp [hcand']) (ihq q)
    case pos =>
      have hspos : 0 < g.abr.getD 0 := by
        by_contra hle
        rw [not_lt] at hle
        simp [isAudioCand, hle] at hcand
      cases hlk : lookupA (tierOf (g.abr.getD 0)) (audioFold d l) with
      | none =>
        have hempty : tierAbrs l (tierOf (g.abr.getD 0)) = [] := by
          have h := ihq (tierOf (g.abr.getD 0))
          rw [hlk] at h
          exact h
        have hmax' : tierMax (l ++ [g]) (tierOf (g.abr.getD 0)) = g.abr.getD 0 := by
          rw [tierMax_append, tier_cond_true g hcand]
          simp [tierMax_of_empty l _ hempty, max_eq_right hspos.le]
        rw [audioStep_insert d _ g hcand hlk]
        constructor
        · rw [List.map_append]
          refine List.Nodup.append ihn (List.nodup_singleton _) ?_
          intro a ha hb
          simp only [List.map_cons, List.map_nil, List.mem_singleton] at hb
          subst hb
          exact (lookupA_eq_none _ _).mp hlk ha
        · intro q
          rw [lookupA_append]
          by_cases hq : q = tierOf (g.abr.getD 0)
          · subst hq
            rw [hlk, lookupA_cons, if_pos rfl]
            refine ⟨g, List.mem_append_right _ (List.mem_singleton.mpr rfl),
              hcand, rfl, rfl, ?_, ?_, ?_⟩
            · rw [hmax']
            · rw [hmax']
              have h := le_pyRound (g.abr.getD 0)
              linarith
            · rw [hmax']
          · cases hlk2 : lookupA q (audioFold d l) with
            | some e =>
              have h := AudioKeyInv_extend d l g q _ (tier_cond_false g q hq) (ihq q)
              rw [hlk2] at h
              exact h
            | none =>
              have h := AudioKeyInv_extend d l g q _ (tier_cond_false g q hq) (ihq q)
              rw [hlk2] at h
              have hne : tierOf (g.abr.getD 0) ≠ q := fun hc => hq hc.symm
              show AudioKeyInv d (l ++ [g]) q
                  (lookupA q [(tierOf (g.abr.getD 0),
                    mkAudioEntry d g (tierOf (g.abr.getD 0)) (g.abr.getD 0))])
              rw [lookupA_cons, if_neg hne]
              exact h
      | some old =>
        have hinv := ihq (tierOf (g.abr.getD 0))
        rw [hlk] at hinv
        obtain ⟨f, hfmem, hfcand, hftier, hfe, hle, hub, hround⟩ := hinv
        have holdabr : old.abr = pyRound (f.abr.getD 0) := by
          rw [hfe]
          rfl
        have hmax' : tierMax (l ++ [g]) (tierOf (g.abr.getD 0)) =
            max (tierMax l (tierOf (g.abr.getD 0))) (g.abr.getD 0) := by
          rw [tierMax_append, tier_cond_true g hcand]
          simp
        by_cases hlt : (old.abr : ℚ) < g.abr.getD 0
        case pos =>
          have hltr : ((pyRound (f.abr.getD 0) : ℤ) : ℚ) < g.abr.getD 0 := by
            rw [← holdabr]
            exact hlt
          rw [audioStep_replace d _ g old hcand hlk hlt]
          constructor
          · rw [updateA_keys]
            exact ihn
          · intro q
            by_cases hq : q = tierOf (g.abr.getD 0)
            · subst hq
              rw [lookupA_updateA_self _ _ _ (by rw [hlk]; rfl)]
              refine ⟨g, List.mem_append_right _ (List.mem_singleton.mpr rfl),
                hcand, rfl, rfl, ?_, ?_, ?_⟩
              · rw [hmax']
                exact le_max_right _ _
              · rw [hmax']
                have hrr : pyRound (f.abr.getD 0) ≤ pyRound (g.abr.getD 0) :=
                  le_pyRound_of_lt _ _ hltr
                have hrr' : ((pyRound (f.abr.getD 0) : ℤ) : ℚ) ≤
                    ((pyRound (g.abr.getD 0) : ℤ) : ℚ) := Int.cast_le.mpr hrr
                have hs2 := le_pyRound (g.abr.getD 0)
                exact max_le (by linarith) (by linarith)
              · rw [hmax']
                rcases le_or_lt (tierMax l (tierOf (g.abr.getD 0))) (g.abr.getD 0) with hMs | hMs
                · rw [max_eq_right hMs]
                · rw [max_eq_left hMs.le]
                  have hsr : pyRound (g.abr.getD 0) = pyRound (f.abr.getD 0) :=
                    pyRound_eq_of_bounds _ _ (by linarith) (by linarith)
                  rw [hround, hsr]
            · rw [lookupA_updateA_ne _ _ _ _ hq]
              exact AudioKeyInv_extend d l g q _ (tier_cond_false g q hq) (ihq q)
        case neg =>
          have hsle : g.abr.getD 0 ≤ ((pyRound (f.abr.getD 0) : ℤ) : ℚ) := by
            rw [← holdabr]
            exact not_lt.mp hlt
          rw [audioStep_keep d _ g old hcand hlk hlt]
          refine ⟨ihn, fun q => ?_⟩
          by_cases hq : q = tierOf (g.abr.getD 0)
          · subst hq
            rw [hlk]
            refine ⟨f, List.mem_append_left _ hfmem, hfcand, hftier, hfe, ?_, ?_, ?_⟩
            · rw [hmax']
              exact le_trans hle (le_max_left _ _)
            · rw [hmax']
              exact max_le hub (by linarith)
            · rw [hmax']
              rcases le_or_lt (g.abr.getD 0) (tierMax l (tierOf (g.abr.getD 0))) with hsM | hsM
              · rw [max_eq_left hsM]
                exact hround
              · rw [max_eq_right hsM.le]
                have hfl := pyRound_le (f.abr.getD 0)
                exact pyRound_eq_of_bounds _ _ (by linarith) (by linarith)
          · exact AudioKeyInv_extend d l g q _ (tier_cond_false g q hq) (ihq q)

/-! ## Claim theorems -/

/-- C6: for every probe invocation that cannot run or whose output cannot
be parsed (any exception, modelled as `.error`), `ffprobe_has_audio`
returns `true` — not `false` and not an error (it is a total
`Bool`-valued function). -/
theorem C6_probe_failure_defaults_true (e : String) :
    ffprobe_has_audio (.error e) = true := rfl

/-- C2: when no companion audio path exists, the executor's ffmpeg command
feeds the primary file plus the synthetic silent stereo 44.1 kHz
`anullsrc` source, maps the silent source's audio stream into the output,
and passes `-shortest`, so — under the spec-modelled collaborator
semantics — the produced file reports an audio stream and is truncated to
the primary's duration. (The primary path is assumed not to collide with
the literal option strings of the command line.) -/
theorem C2_silent_audio_injected (video_path output_path : String)
    (fileDesc : String → InDesc) (hasA hasV : Bool) (dur : ℚ)
    (hv : fileDesc video_path = ⟨hasA, hasV, some dur⟩)
    (hne : video_path ≠ anullsrcSpec) (hnm : video_path ≠ "-map") :
    cmdInputs (transcode_cmd video_path none false output_path)
        = [video_path, anullsrcSpec] ∧
    (transcode_cmd video_path none false output_path).contains "-shortest" = true ∧
    (ffmpegOutput fileDesc (transcode_cmd video_path none false output_path)).hasAudio
        = true ∧
    (ffmpegOutput fileDesc (transcode_cmd video_path none false output_path)).duration
        = some dur := by
  have hins : cmdInputs (transcode_cmd video_path none false output_path)
      = [video_path, anullsrcSpec] := by
    simp [transcode_cmd, cmdInputs]
  have hanm : anullsrcSpec ≠ "-map" := by decide
  have hmaps : cmdMaps (transcode_cmd video_path none false output_path)
      = ["0:v:0", "1:a:0"] := by
    simp [transcode_cmd, cmdMaps, hnm, hanm]
  have hshort : (transcode_cmd video_path none false output_path).contains "-shortest"
      = true := by
    simp [transcode_cmd, List.contains]
  have hdesc : describeInput fileDesc video_path = ⟨hasA, hasV, some dur⟩ := by
    rw [describeInput, if_neg hne, hv]
  have hsil : describeInput fileDesc anullsrcSpec = ⟨true, false, none⟩ := by
    rw [describeInput, if_pos rfl]
  have m1 : mapIsAudio "0:v:0" = false := by decide
  have m2 : mapIsAudio "1:a:0" = true := by decide
  have i0 : mapIndex "0:v:0" = some 0 := by decide
  have i1 : mapIndex "1:a:0" = some 1 := by decide
  refine ⟨hins, hshort, ?_, ?_⟩
  · unfold ffmpegOutput
    simp only [hins, hmaps, List.map_cons, List.map_nil, hdesc, hsil]
    simp [m1, m2, i0, i1]
  · unfold ffmpegOutput
    simp only [hins, hmaps, List.map_cons, List.map_nil, hdesc, hsil, hshort]
    simp [m1, m2, i0, i1, minDur]

/-- Witness for `C2_silent_audio_injected` at a concrete primary file. -/
theorem C2_silent_audio_injected_witness :
    cmdInputs (transcode_cmd "v.mp4" none false "final.mp4")
        = ["v.mp4", anullsrcSpec] ∧
    (transcode_cmd "v.mp4" none false "final.mp4").contains "-shortest" = true ∧
    (ffmpegOutput (fun _ => ⟨false, true, some 10⟩)
        (transcode_cmd "v.mp4" none false "final.mp4")).hasAudio = true ∧
    (ffmpegOutput (fun _ => ⟨false, true, some 10⟩)
        (transcode_cmd "v.mp4" none false "final.mp4")).duration = some 10 :=
  C2_silent_audio_injected "v.mp4" "final.mp4" (fun _ => ⟨false, true, some 10⟩)
    false true 10 rfl (by decide) (by decide)

/-- C4: the Merge/Transcode Executor maps a raising collaborator run to
the return value `false` (success/failure as a total Boolean, nothing
propagates past its boundary), and a `/download` request whose transcode
step fails serves the raw primary fetch under `video/mp4`, not an error
response. -/
theorem C4_transcode_failure_fallback (env : DlEnv) (fmts : List RawFmt)
    (f : FileEntry) (fs : List FileEntry) (err : String)
    (hp : env.probe = .ok fmts) (hf : env.fetchFiles = .ok (f :: fs))
    (ht : env.transcodeRun = .error err) :
    transcode_to_compatible_mp4_result env.transcodeRun = false ∧
    (download env).outcome =
      .served (selectLargest f fs).name (selectLargest f fs).name "video/mp4" ∧
    ∀ s d, (download env).outcome ≠ .httpError s d := by
  have h1 : transcode_to_compatible_mp4_result env.transcodeRun = false := by
    rw [ht]
    rfl
  refine ⟨h1, ?_, ?_⟩
  · cases hbg : env.hasBackgroundTasks <;>
      simp [download, hp, hf, hbg, h1]
  · intro s d
    cases hbg : env.hasBackgroundTasks <;>
      simp [download, hp, hf, hbg, h1]

/-- Witness for `C4_transcode_failure_fallback`. -/
theorem C4_transcode_failure_fallback_witness :
    transcode_to_compatible_mp4_result envTransFail.transcodeRun = false ∧
    (download envTransFail).outcome =
      .served "My Video.mp4" "My Video.mp4" "video/mp4" ∧
    ∀ s d, (download envTransFail).outcome ≠ .httpError s d :=
  C4_transcode_failure_fallback envTransFail
    [{ format_id := some "22", acodec := some "mp4a.40.2" }]
    ⟨"My Video.mp4", 5000⟩ [] "ffmpeg exited 1" rfl rfl rfl

/-- C5: a failing companion-audio fetch never aborts a video request: no
companion path is handed to the executor, and the request still serves
the transcoded (silence-injected) or raw primary file — never an error
response. -/
theorem C5_companion_fetch_failure_nonfatal (env : DlEnv) (fmts : List RawFmt)
    (f : FileEntry) (fs : List FileEntry)
    (hp : env.probe = .ok fmts) (hf : env.fetchFiles = .ok (f :: fs))
    (ha : env.audioRaises = true) :
    (download env).audioPathUsed = none ∧
    ((download env).outcome = .served "final.mp4" "final.mp4" "video/mp4" ∨
      (download env).outcome =
        .served (selectLargest f fs).name (selectLargest f fs).name "video/mp4") ∧
    ∀ s d, (download env).outcome ≠ .httpError s d := by
  refine ⟨?_, ?_, ?_⟩
  · cases hbg : env.hasBackgroundTasks <;>
      simp [download, hp, hf, hbg, ha]
  · by_cases hok : (transcode_to_compatible_mp4_result env.transcodeRun
        && env.transcodeOutProduced) = true
    · left
      cases hbg : env.hasBackgroundTasks <;>
        simp [download, hp, hf, hbg, hok]
    · right
      cases hbg : env.hasBackgroundTasks <;>
        simp [download, hp, hf, hbg, hok]
  · intro s d
    cases hbg : env.hasBackgroundTasks <;>
      simp [download, hp, hf, hbg]

/-- Witness for `C5_companion_fetch_failure_nonfatal`. -/
theorem C5_companion_fetch_failure_nonfatal_witness :
    (download envAudioFail).audioPathUsed = none ∧
    ((download envAudioFail).outcome = .served "final.mp4" "final.mp4" "video/mp4" ∨
      (download envAudioFail).outcome =
        .served "My Video.mp4" "My Video.mp4" "video/mp4") ∧
    ∀ s d, (download envAudioFail).outcome ≠ .httpError s d :=
  C5_companion_fetch_failure_nonfatal envAudioFail
    [{ format_id := some "22", acodec := some "none" }]
    ⟨"My Video.mp4", 5000⟩ [] rfl rfl rfl

/-- C9: after a successful primary fetch the selected `video_path` is a
file of maximal byte size among the workspace files (the head of the
stable size-descending sort), and a fetch that produced no files raises
an explicit 500 error. -/
theorem C9_largest_file_selected (env : DlEnv) (fmts : List RawFmt)
    (hp : env.probe = .ok fmts) :
    (env.fetchFiles = .ok [] →
      (download env).outcome = .httpError 500 "No file downloaded.") ∧
    ∀ f fs, env.fetchFiles = .ok (f :: fs) →
      (download env).videoPathUsed = some (selectLargest f fs).name ∧
      selectLargest f fs ∈ f :: fs ∧
      ∀ g ∈ f :: fs, g.size ≤ (selectLargest f fs).size := by
  constructor
  · intro hf
    simp [download, hp, hf]
  · intro f fs hf
    refine ⟨?_, selectLargest_mem f fs, selectLargest_size f fs⟩
    cases hbg : env.hasBackgroundTasks <;> simp [download, hp, hf, hbg]

/-- Witness for `C9_largest_file_selected`. -/
theorem C9_largest_file_selected_witness :
    (download envOk).videoPathUsed = some "My Video.mp4" ∧
    FileEntry.mk "My Video.mp4" 5000 ∈ [FileEntry.mk "My Video.mp4" 5000] ∧
    ∀ g ∈ [FileEntry.mk "My Video.mp4" 5000],
      g.size ≤ (5000 : ℕ) :=
  (C9_largest_file_selected envOk
    [{ format_id := some "22", acodec := some "mp4a.40.2" }] rfl).2
    ⟨"My Video.mp4", 5000⟩ [] rfl

/-- C10: every successful `/download` response is labelled `video/mp4`
regardless of the served file's actual container: a successful transcode
serves `final.mp4`, a failed one serves the raw primary file under its
original name but still as `video/mp4`. -/
theorem C10_always_video_mp4 (env : DlEnv) (fmts : List RawFmt)
    (f : FileEntry) (fs : List FileEntry)
    (hp : env.probe = .ok fmts) (hf : env.fetchFiles = .ok (f :: fs)) :
    ((transcode_to_compatible_mp4_result env.transcodeRun
        && env.transcodeOutProduced) = true →
      (download env).outcome = .served "final.mp4" "final.mp4" "video/mp4") ∧
    ((transcode_to_compatible_mp4_result env.transcodeRun
        && env.transcodeOutProduced) = false →
      (download env).outcome =
        .served (selectLargest f fs).name (selectLargest f fs).name "video/mp4") ∧
    ∀ p n mt, (download env).outcome = .served p n mt → mt = "video/mp4" := by
  refine ⟨?_, ?_, ?_⟩
  · intro hok
    cases hbg : env.hasBackgroundTasks <;> simp [download, hp, hf, hbg, hok]
  · intro hok
    cases hbg : env.hasBackgroundTasks <;> simp [download, hp, hf, hbg, hok]
  · intro p n mt hserved
    cases hbg : env.hasBackgroundTasks <;>
      simp [download, hp, hf, hbg] at hserved <;> exact hserved.2.2.symm

/-- Witness for `C10_always_video_mp4`. -/
theorem C10_always_video_mp4_witness :
    (download envOk).outcome = .served "final.mp4" "final.mp4" "video/mp4" :=
  (C10_always_video_mp4 envOk [{ format_id := some "22", acodec := some "mp4a.40.2" }]
    ⟨"My Video.mp4", 5000⟩ [] rfl rfl).1 rfl

/-- C8 counterexample: with a supplied identifier matching no probed
descriptor, the primary fetch reuses the stale identifier itself as the
format string — not the generic `"bestvideo+bestaudio/best"` request the
claim describes (that generic string is used only when no identifier was
supplied). -/
theorem C8_counterexample :
    (download envStale).usedVideoFmt = some "stale" ∧
    (download envStale).audioFetchAttempted = true ∧
    some "stale" ≠ some "bestvideo+bestaudio/best" := by
  refine ⟨?_, ?_, by decide⟩ <;> decide

/-- C8 amended: when the supplied identifier matches no probed descriptor,
the chosen stream is treated as audio-less (a companion-audio fetch is
attempted) and the request proceeds — the lookup failure alone never
aborts it — but the primary fetch uses the supplied identifier itself as
the format string, not a generic best-video request. -/
theorem C8_stale_identifier_amended (env : DlEnv) (fid : String)
    (fmts : List RawFmt) (f : FileEntry) (fs : List FileEntry)
    (hid : env.formatId = some fid) (hfid : fid ≠ "")
    (hp : env.probe = .ok fmts)
    (hstale : ∀ g ∈ fmts, g.format_id ≠ some fid)
    (hf : env.fetchFiles = .ok (f :: fs)) :
    (download env).usedVideoFmt = some fid ∧
    (download env).audioFetchAttempted = true ∧
    ∀ s d, (download env).outcome ≠ .httpError s d := by
  have hfind : fmts.find? (fun g => g.format_id == env.formatId) = none := by
    rw [List.find?_eq_none]
    intro g hg
    rw [hid]
    simp only [beq_eq_false_iff_ne, ne_eq, Bool.not_eq_true]
    simp [hstale g hg]
  refine ⟨?_, ?_, ?_⟩
  · cases hbg : env.hasBackgroundTasks <;>
      simp [download, hp, hf, hbg, hfind, hid, pyOrStr, hfid]
  · cases hbg : env.hasBackgroundTasks <;>
      simp [download, hp, hf, hbg, hfind]
  · intro s d
    cases hbg : env.hasBackgroundTasks <;>
      simp [download, hp, hf, hbg]

/-- Witness for `C8_stale_identifier_amended`. -/
theorem C8_stale_identifier_amended_witness :
    (download envStale).usedVideoFmt = some "stale" ∧
    (download envStale).audioFetchAttempted = true ∧
    ∀ s d, (download envStale).outcome ≠ .httpError s d :=
  C8_stale_identifier_amended envStale "stale"
    [{ format_id := some "22", acodec := some "mp4a.40.2" }]
    ⟨"My Video.mp4", 5000⟩ [] rfl (by decide) rfl
    (by intro g hg; simp [envStale] at hg; simp [hg]) rfl

/-! ### Arithmetic facts about the C7 fixture -/

theorem floor_a1 : ⌊(359 : ℚ)/4⌋ = 89 := by norm_num [Int.floor_eq_iff]

theorem pyRound_a1 : pyRound ((359 : ℚ)/4) = 90 := by
  unfold pyRound
  rw [floor_a1]
  rw [if_neg (by norm_num), if_pos (by norm_num)]
  norm_num

theorem mkAudioEntry_format_id (d : ℚ) (f : RawFmt) (q : String) (a : ℚ) :
    (mkAudioEntry d f q a).format_id = f.format_id := rfl

theorem mkAudioEntry_ext (d : ℚ) (f : RawFmt) (q : String) (a : ℚ) :
    (mkAudioEntry d f q a).ext = f.ext := rfl

theorem fmtsC7_map : audio_formats_map 0 fmtsC7 =
    [("Low", mkAudioEntry 0 (mkAud "a1" "webm" (359/4)) "Low" (359/4))] := by
  have h1 : ¬((359:ℚ)/4 ≤ 0) := by norm_num
  have h2 : ¬((719:ℚ)/8 ≤ 0) := by norm_num
  have h3 : ((359:ℚ)/4 < 90) := by norm_num
  have h4 : ((719:ℚ)/8 < 90) := by norm_num
  have h5 : ¬((90:ℚ) < 719/8) := by norm_num
  unfold audio_formats_map fmtsC7
  simp only [List.foldl_cons, List.foldl_nil]
  simp [classifyStep, mkAud, sTruthy, tierOf, lookupA, h1, h2, h3, h4, h5,
    pyRound_a1, mkAudioEntry_abr]

theorem fmtsC7_tierAbrs : tierAbrs fmtsC7 "Low" = [359/4, 719/8] := by
  have h1 : ¬((359:ℚ)/4 ≤ 0) := by norm_num
  have h2 : ¬((719:ℚ)/8 ≤ 0) := by norm_num
  have h3 : ((359:ℚ)/4 < 90) := by norm_num
  have h4 : ((719:ℚ)/8 < 90) := by norm_num
  unfold tierAbrs fmtsC7
  simp [List.filter_cons, isAudioCand, mkAud, tierOf, h1, h2, h3, h4]

theorem fmtsC7_tierMax : tierMax fmtsC7 "Low" = 719/8 := by
  unfold tierMax
  rw [fmtsC7_tierAbrs]
  simp [max_def]
  norm_num

/-- C7 counterexample: for two Low-tier descriptors of 89.75 and
89.875 kbps, the published entry is built from the first (89.75) because
the replacement test compares against the *rounded* stored bitrate (90):
neither the entry's bitrate field (90) nor the kept descriptor's bitrate
(89.75 = 359/4) is the tier maximum (89.875 = 719/8). -/
theorem C7_counterexample :
    (lookupA "Low" (audio_formats_map 0 fmtsC7)).map AudioEntry.bitrate = some 90 ∧
    (lookupA "Low" (audio_formats_map 0 fmtsC7)).map AudioEntry.format_id
      = some (some "a1") ∧
    tierMax fmtsC7 "Low" = 719/8 ∧
    ((90 : ℚ) ≠ 719/8) ∧ ((359/4 : ℚ) ≠ 719/8) := by
  refine ⟨?_, ?_, fmtsC7_tierMax, by norm_num, by norm_num⟩
  · rw [fmtsC7_map]
    simp [lookupA, mkAudioEntry_bitrate, pyRound_a1]
  · rw [fmtsC7_map]
    simp [lookupA, mkAudioEntry_format_id, mkAud]

/-- C7 amended: the menu still holds at most one entry per audio tier
(dict keys are distinct) and every tier entry's published bitrate equals
the *nearest-integer rounding* of the maximal same-tier input bitrate —
but the kept descriptor itself need not be the maximal-bitrate one, since
candidates are compared against the rounded stored bitrate. -/
theorem C7_audio_tiering_amended (duration : ℚ) (fmts : List RawFmt) :
    ((audio_formats_map duration fmts).map Prod.fst).Nodup ∧
    (∀ q e, lookupA q (audio_formats_map duration fmts) = some e →
      e.bitrate = pyRound (tierMax fmts q) ∧
      ∃ f ∈ fmts, isAudioCand f = true ∧ tierOf (f.abr.getD 0) = q ∧
        e = mkAudioEntry duration f q (f.abr.getD 0)) ∧
    (∀ q, tierAbrs fmts q ≠ [] →
      (lookupA q (audio_formats_map duration fmts)).isSome) := by
  rw [audio_formats_map_eq]
  obtain ⟨hn, hq⟩ := audioFold_inv duration fmts
  refine ⟨hn, ?_, ?_⟩
  · intro q e hlk
    have h := hq q
    rw [hlk] at h
    obtain ⟨f, hf, h1, h2, h3, _h4, _h5, h6⟩ := h
    refine ⟨?_, f, hf, h1, h2, h3⟩
    rw [h3, mkAudioEntry_bitrate]
    exact h6.symm
  · intro q hne
    cases hlk : lookupA q (audioFold duration fmts) with
    | some e => rfl
    | none =>
      have h := hq q
      rw [hlk] at h
      exact absurd h hne

/-- Witness for `C7_audio_tiering_amended`. -/
theorem C7_audio_tiering_amended_witness :
    ((audio_formats_map 0 fmtsC7).map Prod.fst).Nodup ∧
    (∃ e, lookupA "Low" (audio_formats_map 0 fmtsC7) = some e ∧
      e.bitrate = pyRound (tierMax fmtsC7 "Low")) ∧
    (lookupA "Low" (audio_formats_map 0 fmtsC7)).isSome := by
  have h := C7_audio_tiering_amended 0 fmtsC7
  have hne : tierAbrs fmtsC7 "Low" ≠ [] := by
    rw [fmtsC7_tierAbrs]
    simp
  refine ⟨h.1, ?_, h.2.2 "Low" hne⟩
  have hsome := h.2.2 "Low" hne
  cases hlk : lookupA "Low" (audio_formats_map 0 fmtsC7) with
  | none =>
    rw [hlk] at hsome
    simp at hsome
  | some e => exact ⟨e, rfl, (h.2.1 "Low" e hlk).1⟩

theorem fmtsC3_menu : fetch_info_formats 0 fmtsC3 =
    [FmtEntry.audio (mkAudioEntry 0 (mkAud "a1" "webm" 128) "Medium" 128)] := by
  have h1 : ¬((128:ℚ) ≤ 0) := by norm_num
  have h2 : ¬((128:ℚ) < 90) := by norm_num
  have h3 : ((128:ℚ) < 170) := by norm_num
  unfold fetch_info_formats audio_formats_map video_formats_list fmtsC3
  simp only [List.foldl_cons, List.foldl_nil]
  simp [classifyStep, mkAud, sTruthy, tierOf, lookupA, h1, h2, h3]

/-- C3 counterexample: a single audio-only webm descriptor yields a menu
whose first (and only) entry keeps identifier "a1" and extension "webm" —
no MP3-conversion entry (extension "mp3", 0.9× estimated size) is
synthesized anywhere in the menu. -/
theorem C3_counterexample :
    (fetch_info_formats 0 fmtsC3).length = 1 ∧
    ((fetch_info_formats 0 fmtsC3).head?.map entryExt) = some (some "webm") ∧
    (some "webm" : Option String) ≠ some "mp3" := by
  rw [fmtsC3_menu]
  refine ⟨rfl, ?_, by simp⟩
  simp [entryExt, mkAudioEntry_ext, mkAud]

/-- C3 amended: whenever the input holds at least one publishable
audio-only descriptor, the menu's first entry is an audio tier entry
built from one of the input's audio-only descriptors — it keeps that
descriptor's identifier and container extension; no MP3-conversion entry
is synthesized. -/
theorem C3_menu_head_amended (duration : ℚ) (fmts : List RawFmt)
    (h : ∃ f ∈ fmts, isAudioCand f = true) :
    ∃ e rest, fetch_info_formats duration fmts = FmtEntry.audio e :: rest ∧
      ∃ f ∈ fmts, isAudioCand f = true ∧
        e.format_id = f.format_id ∧ e.ext = f.ext ∧
        e = mkAudioEntry duration f (tierOf (f.abr.getD 0)) (f.abr.getD 0) := by
  obtain ⟨f0, hf0, hcand0⟩ := h
  obtain ⟨hn, hq⟩ := audioFold_inv duration fmts
  have hne : tierAbrs fmts (tierOf (f0.abr.getD 0)) ≠ [] := by
    intro hc
    have hmem : f0 ∈ fmts.filter
        (fun f => isAudioCand f && (tierOf (f.abr.getD 0) == tierOf (f0.abr.getD 0))) :=
      List.mem_filter.mpr ⟨hf0, by simp [hcand0]⟩
    simp only [tierAbrs, List.map_eq_nil_iff] at hc
    rw [hc] at hmem
    exact absurd hmem (List.not_mem_nil _)
  cases hm : audioFold duration fmts with
  | nil =>
    have h := hq (tierOf (f0.abr.getD 0))
    rw [hm] at h
    exact absurd h hne
  | cons p rest' =>
    obtain ⟨k0, e0⟩ := p
    have hlk0 : lookupA k0 (audioFold duration fmts) = some e0 := by
      rw [hm]
      exact lookupA_head k0 e0 rest'
    have h := hq k0
    rw [hlk0] at h
    obtain ⟨f, hf, h1, h2, h3, _, _, _⟩ := h
    refine ⟨e0, rest'.map (fun p => FmtEntry.audio p.2)
        ++ (video_formats_list duration fmts).map FmtEntry.video,
      ?_, f, hf, h1, ?_, ?_, ?_⟩
    · unfold fetch_info_formats
      rw [audio_formats_map_eq, hm]
      simp
    · rw [h3, mkAudioEntry_format_id]
    · rw [h3, mkAudioEntry_ext]
    · rw [h2]
      exact h3

/-- Witness for `C3_menu_head_amended`. -/
theorem C3_menu_head_amended_witness :
    ∃ e rest, fetch_info_formats 0 fmtsC3 = FmtEntry.audio e :: rest ∧
      ∃ f ∈ fmtsC3, isAudioCand f = true ∧
        e.format_id = f.format_id ∧ e.ext = f.ext ∧
        e = mkAudioEntry 0 f (tierOf (f.abr.getD 0)) (f.abr.getD 0) :=
  C3_menu_head_amended 0 fmtsC3
    ⟨mkAud "a1" "webm" 128, by simp [fmtsC3], by simp [isAudioCand, mkAud]⟩

/-- C1 counterexample: a fully successful request (probe ok, fetch ok,
transcode ok, background cleanup ran) still leaves the workspace
directory on disk containing the raw fetched file — only the served
`final.mp4` was deleted, and the directory is removed only when empty. -/
theorem C1_counterexample :
    (download envOk).outcome = .served "final.mp4" "final.mp4" "video/mp4" ∧
    (download envOk).dirExists = true ∧
    (download envOk).dirFiles = [⟨"My Video.mp4", 5000⟩] := by
  refine ⟨?_, ?_, ?_⟩ <;> decide

/-- C1 amended: the workspace is recursively deleted on every error exit
taken inside the handler's `try` block (fetch failure, empty fetch, any
caught exception), but a probe failure before the `try` block leaves the
(empty) workspace in place, and on the normal-response path only the
served file is deleted afterward: every other fetched file persists, and
the directory itself is removed only if nothing remains in it. -/
theorem C1_workspace_cleanup_amended (env : DlEnv) :
    (∀ e, env.probe = .error e →
      (download env).dirExists = true ∧ (download env).dirFiles = []) ∧
    (∀ fmts e, env.probe = .ok fmts → env.fetchFiles = .error e →
      (download env).dirExists = false ∧ (download env).dirFiles = []) ∧
    (∀ fmts, env.probe = .ok fmts → env.fetchFiles = .ok [] →
      (download env).dirExists = false ∧ (download env).dirFiles = []) ∧
    (∀ fmts f fs, env.probe = .ok fmts → env.fetchFiles = .ok (f :: fs) →
      env.hasBackgroundTasks = true →
      ∃ p, (download env).outcome = .served p p "video/mp4" ∧
        (∀ g ∈ (download env).dirFiles, g.name ≠ p) ∧
        (∀ g ∈ f :: fs, g.name ≠ p → g ∈ (download env).dirFiles) ∧
        ((download env).dirExists = false ↔ (download env).dirFiles = [])) := by
  refine ⟨?_, ?_, ?_, ?_⟩
  · intro e hp
    constructor <;> simp [download, hp]
  · intro fmts e hp hf
    constructor <;> simp [download, hp, hf]
  · intro fmts hp hf
    constructor <;> simp [download, hp, hf]
  · intro fmts f fs hp hf hbg
    cases hok : (transcode_to_compatible_mp4_result env.transcodeRun
        && env.transcodeOutProduced) with
    | true =>
      refine ⟨"final.mp4", ?_, ?_, ?_, ?_⟩
      · simp [download, hp, hf, hbg, hok]
      · intro g hg
        simp [download, hp, hf, hbg, hok, remove_file_later] at hg
        exact hg.2
      · intro g hg hne
        simp only [List.mem_cons] at hg
        simp [download, hp, hf, hbg, hok, remove_file_later, List.mem_filter]
        tauto
      · simp [download, hp, hf, hbg, hok, remove_file_later, List.isEmpty_iff]
    | false =>
      refine ⟨(selectLargest f fs).name, ?_, ?_, ?_, ?_⟩
      · simp [download, hp, hf, hbg, hok]
      · intro g hg
        simp [download, hp, hf, hbg, hok, remove_file_later] at hg
        exact hg.2
      · intro g hg hne
        simp only [List.mem_cons] at hg
        simp [download, hp, hf, hbg, hok, remove_file_later, List.mem_filter]
        tauto
      · simp [download, hp, hf, hbg, hok, remove_file_later, List.isEmpty_iff]

/-- Witness for `C1_workspace_cleanup_amended`: a probe failure leaves
the empty workspace in place; a fetch failure deletes it. -/
theorem C1_workspace_cleanup_amended_witness :
    ((download envProbeFail).dirExists = true ∧
      (download envProbeFail).dirFiles = []) ∧
    ((download envFetchFail).dirExists = false ∧
      (download envFetchFail).dirFiles = []) :=
  ⟨(C1_workspace_cleanup_amended envProbeFail).1 "extract failed" rfl,
   (C1_workspace_cleanup_amended envFetchFail).2.1
     [{ format_id := some "22", acodec := some "mp4a.40.2" }] "fetch failed" rfl rfl⟩
